import Mathlib

/-!
Verification of `github3/events.py`: the `Event` decoder and its payload
dispatcher.

Python values flowing through the module (JSON-decoded data, plus the richer
entity objects the transforms construct) are embedded as the inductive `Val`.
Python `dict`s become ordered association lists `List (String × Val)`;
`dict.get k` returns `vnull` for an absent key, mirroring Python's `None`
default.  Raising an exception is modelled by `Option`: a function returns
`none` exactly where the Python code would raise.

The payload transforms mutate the payload dict in place and return it.  That
mutation is visible through the raw event mapping (its "payload" entry is the
same object), so `decode` returns both the built `Event` and the raw mapping
as it stands after the call.
-/

/-- A JSON-like runtime value.  `ventity kind data` stands for a richer
domain object (`User`, `RepoComment`, ...) constructed from raw data `data`;
the entity classes live outside this module, so only their construction is
modelled (see `Modelled from the spec` notes below). -/
inductive Val where
  | vnull
  | vbool (b : Bool)
  | vnum (n : Int)
  | vstr (s : String)
  | ventity (kind : String) (data : Val)
  | vlist (xs : List Val)
  | vmap (entries : List (String × Val))

/-- Python truthiness of a `Val`: `None`, `False`, `0`, `""`, `[]`, `{}` are
falsy; constructed entity objects are truthy (default object truthiness). -/
def truthy : Val → Bool
  | .vnull => false
  | .vbool b => b
  | .vnum n => n ≠ 0
  | .vstr s => s ≠ ""
  | .ventity _ _ => true
  | .vlist xs => ¬ xs.isEmpty
  | .vmap es => ¬ es.isEmpty

/-- Find the value stored at key `k`, if any (`dict.__contains__` plus read). -/
def lookupE : List (String × Val) → String → Option Val
  | [], _ => none
  | (k1, v1) :: tl, k => if k1 = k then some v1 else lookupE tl k

/-- Python `dict.get(k)`: the stored value, or `None` when the key is absent. -/
def getE (es : List (String × Val)) (k : String) : Val :=
  (lookupE es k).getD .vnull

/-- Python `dict[k] = v`: replace the value at the first occurrence of `k`,
keeping its position; append when absent (insertion order preserved). -/
def setE : List (String × Val) → String → Val → List (String × Val)
  | [], k, v => [(k, v)]
  | (k1, v1) :: tl, k, v => if k1 = k then (k, v) :: tl else (k1, v1) :: setE tl k v

/-- Split a character list at every occurrence of `sep`
(Python `str.split(sep)` with a one-character separator). -/
def splitChars (sep : Char) : List Char → List (List Char)
  | [] => [[]]
  | c :: cs =>
      if c = sep then [] :: splitChars sep cs
      else
        match splitChars sep cs with
        | w :: ws => (c :: w) :: ws
        | [] => [[c]]

/-- Python `s.split(sep)` for a one-character separator: splits on every
occurrence; `"".split(sep) = [""]`. -/
def pySplit (s : String) (sep : Char) : List String :=
  (splitChars sep s.toList).map String.mk

/-- Modelled from the spec: `GitHubObject._strptime` (defined in
`github3/models.py`, not part of this source tree) is "a permissive
timestamp-parse that returns no value on absent/unparseable input rather
than failing".  It is embedded as a total deterministic function: a
non-empty string parses to a detached timestamp entity, anything else
yields `None`. -/
def strptime : Val → Val
  | .vstr s => if s = "" then .vnull else .ventity "DateTime" (.vstr s)
  | _ => .vnull

/-- Transform for `CommitCommentEvent`: a truthy `comment` entry is replaced
in place by a `RepoComment` entity.  `none` models the `AttributeError`
raised when the payload is not a dict (`payload.get`). -/
def _commitcomment : Val → Option Val
  | .vmap es =>
      some (.vmap (if truthy (getE es "comment")
        then setE es "comment" (.ventity "RepoComment" (getE es "comment"))
        else es))
  | _ => none

/-- Transform for `FollowEvent`: a truthy `target` entry becomes a `User`. -/
def _follow : Val → Option Val
  | .vmap es =>
      some (.vmap (if truthy (getE es "target")
        then setE es "target" (.ventity "User" (getE es "target"))
        else es))
  | _ => none

/-- Transform for `ForkEvent`: a truthy `forkee` entry becomes a
`Repository`. -/
def _forkev : Val → Option Val
  | .vmap es =>
      some (.vmap (if truthy (getE es "forkee")
        then setE es "forkee" (.ventity "Repository" (getE es "forkee"))
        else es))
  | _ => none

/-- Transform for `GistEvent`: a truthy `gist` entry becomes a `Gist`. -/
def _gist : Val → Option Val
  | .vmap es =>
      some (.vmap (if truthy (getE es "gist")
        then setE es "gist" (.ventity "Gist" (getE es "gist"))
        else es))
  | _ => none

/-- Transform for `IssueCommentEvent`: a truthy `issue` entry becomes an
`Issue`, then a truthy `comment` entry becomes an `IssueComment` (the second
read happens on the already-updated dict, as in the source). -/
def _issuecomm : Val → Option Val
  | .vmap es =>
      let es1 := if truthy (getE es "issue")
        then setE es "issue" (.ventity "Issue" (getE es "issue")) else es
      some (.vmap (if truthy (getE es1 "comment")
        then setE es1 "comment" (.ventity "IssueComment" (getE es1 "comment"))
        else es1))
  | _ => none

/-- Transform for `IssuesEvent`: a truthy `issue` entry becomes an `Issue`. -/
def _issueevent : Val → Option Val
  | .vmap es =>
      some (.vmap (if truthy (getE es "issue")
        then setE es "issue" (.ventity "Issue" (getE es "issue"))
        else es))
  | _ => none

/-- Transform for `MemberEvent`: a truthy `member` entry becomes a `User`. -/
def _member : Val → Option Val
  | .vmap es =>
      some (.vmap (if truthy (getE es "member")
        then setE es "member" (.ventity "User" (getE es "member"))
        else es))
  | _ => none

/-- Transform for `PullRequestEvent`: a truthy `pull_request` entry becomes
a `PullRequest`. -/
def _pullreqev : Val → Option Val
  | .vmap es =>
      some (.vmap (if truthy (getE es "pull_request")
        then setE es "pull_request" (.ventity "PullRequest" (getE es "pull_request"))
        else es))
  | _ => none

/-- Transform for `PullRequestReviewCommentEvent`: a truthy `pull_request`
entry becomes a `PullRequest`, then a truthy `comment` entry becomes a
`ReviewComment`. -/
def _pullreqcomm : Val → Option Val
  | .vmap es =>
      let es1 := if truthy (getE es "pull_request")
        then setE es "pull_request" (.ventity "PullRequest" (getE es "pull_request"))
        else es
      some (.vmap (if truthy (getE es1 "comment")
        then setE es1 "comment" (.ventity "ReviewComment" (getE es1 "comment"))
        else es1))
  | _ => none

/-- Transform for `ReleaseEvent`: a truthy `release` entry becomes a
`Release`. -/
def _release : Val → Option Val
  | .vmap es =>
      some (.vmap (if truthy (getE es "release")
        then setE es "release" (.ventity "Release" (getE es "release"))
        else es))
  | _ => none

/-- Transform for `TeamAddEvent`: truthy `team`, `repo` and `user` entries
become `Team`, `Repository` and `User` entities, in that order. -/
def _team : Val → Option Val
  | .vmap es =>
      let es1 := if truthy (getE es "team")
        then setE es "team" (.ventity "Team" (getE es "team")) else es
      let es2 := if truthy (getE es1 "repo")
        then setE es1 "repo" (.ventity "Repository" (getE es1 "repo")) else es1
      some (.vmap (if truthy (getE es2 "user")
        then setE es2 "user" (.ventity "User" (getE es2 "user"))
        else es2))
  | _ => none

/-- The module-level `identity` function: returns its argument unchanged. -/
def identity (x : Val) : Val := x

/-- The 19 keys of the `_payload_handlers` registry, in source order. -/
def registeredTypes : List String :=
  ["CommitCommentEvent", "CreateEvent", "DeleteEvent", "FollowEvent",
   "ForkEvent", "ForkApplyEvent", "GistEvent", "GollumEvent",
   "IssueCommentEvent", "IssuesEvent", "MemberEvent", "PublicEvent",
   "PullRequestEvent", "PullRequestReviewCommentEvent", "PushEvent",
   "ReleaseEvent", "StatusEvent", "TeamAddEvent", "WatchEvent"]

/-- Payload keys a registered transform may replace (the dispatch table of
the spec, read off the transforms above); `[]` for identity-handled,
`PublicEvent` and unregistered types. -/
def listedKeys (t : String) : List String :=
  if t = "CommitCommentEvent" then ["comment"]
  else if t = "FollowEvent" then ["target"]
  else if t = "ForkEvent" then ["forkee"]
  else if t = "GistEvent" then ["gist"]
  else if t = "IssueCommentEvent" then ["issue", "comment"]
  else if t = "IssuesEvent" then ["issue"]
  else if t = "MemberEvent" then ["member"]
  else if t = "PullRequestEvent" then ["pull_request"]
  else if t = "PullRequestReviewCommentEvent" then ["pull_request", "comment"]
  else if t = "ReleaseEvent" then ["release"]
  else if t = "TeamAddEvent" then ["team", "repo", "user"]
  else []

/-- `_payload_handlers.get(type, identity)` followed by the call
`handler(payload)`.  The result is the pair (returned value, payload object
after the call): every registered transform returns the payload it mutated,
so both components coincide, except for `PublicEvent`, whose handler
`lambda x: ''` returns the empty string and leaves the payload alone.
Unregistered keys — and a hashable non-string `type` (`None`, booleans,
numbers, entity objects), which is simply not found in the string-keyed
dict — fall back to `identity`.  An unhashable `type` value (a list or a
mapping) makes `dict.get` itself raise `TypeError` before any fallback;
`none` models that raise and a raise from the selected handler. -/
def applyHandler (t : Val) (p : Val) : Option (Val × Val) :=
  match t with
  | .vstr s =>
      if s = "CommitCommentEvent" then (_commitcomment p).map (fun r => (r, r))
      else if s = "CreateEvent" then some (identity p, p)
      else if s = "DeleteEvent" then some (identity p, p)
      else if s = "FollowEvent" then (_follow p).map (fun r => (r, r))
      else if s = "ForkEvent" then (_forkev p).map (fun r => (r, r))
      else if s = "ForkApplyEvent" then some (identity p, p)
      else if s = "GistEvent" then (_gist p).map (fun r => (r, r))
      else if s = "GollumEvent" then some (identity p, p)
      else if s = "IssueCommentEvent" then (_issuecomm p).map (fun r => (r, r))
      else if s = "IssuesEvent" then (_issueevent p).map (fun r => (r, r))
      else if s = "MemberEvent" then (_member p).map (fun r => (r, r))
      else if s = "PublicEvent" then some (.vstr "", p)
      else if s = "PullRequestEvent" then (_pullreqev p).map (fun r => (r, r))
      else if s = "PullRequestReviewCommentEvent" then (_pullreqcomm p).map (fun r => (r, r))
      else if s = "PushEvent" then some (identity p, p)
      else if s = "ReleaseEvent" then (_release p).map (fun r => (r, r))
      else if s = "StatusEvent" then some (identity p, p)
      else if s = "TeamAddEvent" then (_team p).map (fun r => (r, r))
      else if s = "WatchEvent" then some (identity p, p)
      else some (identity p, p)
  | .vlist _ => none
  | .vmap _ => none
  | _ => some (identity p, p)

/-- The decoded `Event`.  Attributes that Python sets to `None` hold
`Val.vnull`; `repo` holds either `vnull` or the `vlist` of split name
components (Python's `tuple`); entity-valued attributes hold `ventity`
values (Modelled from the spec: `User` and `Organization` construction,
defined outside this module, wraps the raw mapping into a detached
entity). -/
structure Event where
  actor : Val
  created_at : Val
  id : Val
  org : Val
  type : Val
  payload : Val
  repo : Val
  public : Val

/-- Lines 52-54 of the source: `event.get('repo')`, and when that is not
`None`, `tuple(self.repo['name'].split('/'))`.  `none` models the
`KeyError` (mapping without a `"name"` key), the `TypeError` (`['name']` on
a non-mapping) and the `AttributeError` (`.split` on a non-string). -/
def repoFrom : Val → Option Val
  | .vnull => some .vnull
  | .vmap rs =>
      match lookupE rs "name" with
      | some (.vstr s) => some (.vlist ((pySplit s '/').map .vstr))
      | _ => none
  | _ => none

/-- `Event._update_attributes`: build the `Event` from one raw event
mapping.  Returns the event together with the raw mapping as it stands
after the call (the payload transforms mutate the nested payload dict in
place, which is visible through the mapping's `"payload"` entry).  `none`
models an exception escaping the decode: a non-mapping input, a payload the
selected handler rejects, or a malformed `repo` entry. -/
def decode (event : Val) : Option (Event × Val) :=
  match event with
  | .vmap es =>
      match applyHandler (getE es "type") (getE es "payload") with
      | none => none
      | some (payload, payloadAfter) =>
          match repoFrom (getE es "repo") with
          | none => none
          | some repo =>
              some ({ actor := if truthy (getE es "actor")
                        then .ventity "User" (getE es "actor") else .vnull,
                      created_at := strptime (getE es "created_at"),
                      id := getE es "id",
                      org := if truthy (getE es "org")
                        then .ventity "Organization" (getE es "org") else .vnull,
                      type := getE es "type",
                      payload := payload,
                      repo := repo,
                      public := getE es "public" },
                    .vmap (if (lookupE es "payload").isSome
                      then setE es "payload" payloadAfter else es))
  | _ => none

/-- Python `s[:-5]`: all but the last five characters (empty when the
string has five or fewer). -/
def pySliceDropLast5 (s : String) : String :=
  String.mk (s.toList.take (s.toList.length - 5))

/-- `Event._repr`: renders the tag from `self.type[:-5]`.  Modelled for a
string `type`, the only case the theorems below use; a `None` (or other
non-sliceable) `type` raises `TypeError`.  A sliceable non-string `type`
(a list) would render its slice in Python; that case is outside this
model's scope and also mapped to `none`. -/
def Event._repr (e : Event) : Option String :=
  match e.type with
  | .vstr s => some ("<Event [" ++ pySliceDropLast5 s ++ "]>")
  | _ => none

/-- The spec's words for the rendered tag, for comparison with the code's
`pySliceDropLast5`: the type string "with its trailing Event suffix
stripped", i.e. unchanged when there is no such suffix. -/
def stripEventSuffixSpec (s : String) : String :=
  if ("Event".toList).isSuffixOf s.toList
  then String.mk (s.toList.take (s.toList.length - 5)) else s

/-- Entries of a `vmap`, `[]` otherwise (observation helper). -/
def Val.entriesOf : Val → List (String × Val)
  | .vmap es => es
  | _ => []

/-- Observation: is the value a mapping? -/
def Val.isVmapB : Val → Bool
  | .vmap _ => true
  | _ => false

/-- Observation: is the value the empty string? -/
def Val.isEmptyStr : Val → Bool
  | .vstr s => s = ""
  | _ => false

/-- Observation: the width of a decoded `repo` tuple. -/
def Val.tupleLength : Val → Nat
  | .vlist xs => xs.length
  | _ => 0

/-- The raw mapping's `repo` entry will not make `decode` raise: absent or
`None`, or a mapping whose `name` entry is a string. -/
def repoOk (es : List (String × Val)) : Bool :=
  (repoFrom (getE es "repo")).isSome

/-- The selected payload handler accepts the raw mapping's payload. -/
def handlerOk (es : List (String × Val)) : Bool :=
  (applyHandler (getE es "type") (getE es "payload")).isSome

/-! ### Helper lemmas about the association-list dict operations -/

theorem lookupE_setE_ne (es : List (String × Val)) (k k1 : String) (v : Val)
    (h : k1 ≠ k) : lookupE (setE es k v) k1 = lookupE es k1 := by
  induction es with
  | nil => simp [setE, lookupE, h, Ne.symm h]
  | cons hd tl ih =>
      obtain ⟨k2, v2⟩ := hd
      by_cases h2 : k2 = k
      · subst h2
        simp [setE, lookupE, h, Ne.symm h]
      · simp only [setE, if_neg h2, lookupE]
        by_cases h3 : k2 = k1 <;> simp [h3, ih]

theorem getE_setE_ne (es : List (String × Val)) (k k1 : String) (v : Val)
    (h : k1 ≠ k) : getE (setE es k v) k1 = getE es k1 := by
  simp [getE, lookupE_setE_ne es k k1 v h]

theorem getE_setE_self (es : List (String × Val)) (k : String) (v : Val) :
    getE (setE es k v) k = v := by
  induction es with
  | nil => simp [setE, getE, lookupE]
  | cons hd tl ih =>
      obtain ⟨k2, v2⟩ := hd
      by_cases h2 : k2 = k
      · subst h2; simp [setE, getE, lookupE]
      · simp only [setE, if_neg h2, getE, lookupE]
        exact ih

theorem setE_lookup_self (es : List (String × Val)) (k : String)
    (h : (lookupE es k).isSome = true) : setE es k (getE es k) = es := by
  induction es with
  | nil => simp [lookupE] at h
  | cons hd tl ih =>
      obtain ⟨k2, v2⟩ := hd
      by_cases h2 : k2 = k
      · subst h2; simp [setE, getE, lookupE]
      · simp only [lookupE, if_neg h2] at h
        simp only [setE, if_neg h2, getE, lookupE, if_neg h2]
        rw [show getE tl k = (lookupE tl k).getD .vnull from rfl] at ih
        simp [ih h]

theorem getE_ifset_ne (es : List (String × Val)) (key kind k : String)
    (h : k ≠ key) :
    getE (if truthy (getE es key)
      then setE es key (.ventity kind (getE es key)) else es) k = getE es k := by
  split
  · exact getE_setE_ne es key k _ h
  · rfl

theorem ifset_falsy (es : List (String × Val)) (key kind : String)
    (h : truthy (getE es key) = false) :
    (if truthy (getE es key)
      then setE es key (.ventity kind (getE es key)) else es) = es := by
  simp [h]

/-! ### C1 — repeated decoding -/

/-- The raw event mapping used to refute C1: a `CommitCommentEvent` whose
payload carries a truthy `comment`. -/
def c1ex : Val := .vmap [("type", .vstr "CommitCommentEvent"),
  ("payload", .vmap [("comment", .vmap [("body", .vstr "b")])])]

/-- C1, counterexample: decoding the same mapping object twice is not
repeatable.  The first `decode` replaces the payload's `comment` entry in
place with a `RepoComment` entity; the second `decode` of the mutated
mapping wraps that entity again, so the two Events' payloads differ. -/
theorem decode_twice_commitcomment_differs :
    (decode c1ex).map (fun r => r.1.payload) =
      some (.vmap [("comment", .ventity "RepoComment" (.vmap [("body", .vstr "b")]))]) ∧
    ((decode c1ex).bind fun r => decode r.2).map (fun r => r.1.payload) =
      some (.vmap [("comment",
        .ventity "RepoComment" (.ventity "RepoComment" (.vmap [("body", .vstr "b")])))]) ∧
    Val.vmap [("comment", .ventity "RepoComment" (.vmap [("body", .vstr "b")]))] ≠
      Val.vmap [("comment",
        .ventity "RepoComment" (.ventity "RepoComment" (.vmap [("body", .vstr "b")])))] :=
  ⟨rfl, rfl, by simp⟩

/-- C1, amended: decoding is repeatable exactly when the selected transform
hands the payload back unchanged (identity-handled, unregistered or absent
types, `PublicEvent`, or payloads whose listed keys are absent/falsy): then
the raw mapping is left equal to its original value and a second decode
yields the same Event and mapping.  (When a transform does replace a
payload key, the in-place mutation makes a second decode differ, per the
counterexample.) -/
theorem decode_repeat_of_payload_unreplaced :
    ∀ (es : List (String × Val)) (e : Event) (m : Val),
    (applyHandler (getE es "type") (getE es "payload")).map Prod.snd =
      some (getE es "payload") →
    decode (.vmap es) = some (e, m) →
    m = .vmap es ∧ decode m = some (e, m) := by
  intro es e m hA hD
  obtain ⟨rp, hr, hsnd⟩ := Option.map_eq_some'.mp hA
  obtain ⟨r, pa⟩ := rp
  simp only at hsnd
  subst hsnd
  simp only [decode, hr] at hD
  cases hrp : repoFrom (getE es "repo") with
  | none => rw [hrp] at hD; simp at hD
  | some rv =>
      rw [hrp] at hD
      simp only [Option.some.injEq, Prod.mk.injEq] at hD
      obtain ⟨hE, hM⟩ := hD
      have hm : m = .vmap es := by
        rw [← hM]
        by_cases hp : (lookupE es "payload").isSome
        · simp only [hp, if_true, setE_lookup_self es "payload" hp]
        · simp only [hp, if_false]
          simp at hp
          simp [hp]
      refine ⟨hm, ?_⟩
      rw [hm]
      simp only [decode, hr]
      rw [hrp]
      simp only [Option.some.injEq, Prod.mk.injEq]
      exact ⟨hE, hM.trans hm⟩

/-- The mapping instantiating the witness of C1: a `PushEvent` (identity
transform) with a payload present. -/
def c1w : List (String × Val) :=
  [("type", .vstr "PushEvent"), ("payload", .vmap [("k", .vnum 1)])]

/-- The Event decoded from `c1w`. -/
def c1wEvent : Event :=
  ⟨.vnull, .vnull, .vnull, .vnull, .vstr "PushEvent", .vmap [("k", .vnum 1)], .vnull, .vnull⟩

/-- C1, witness: the amended theorem applied to the concrete `PushEvent`
mapping `c1w`. -/
theorem decode_repeat_of_payload_unreplaced_witness :
    ((applyHandler (getE c1w "type") (getE c1w "payload")).map Prod.snd =
      some (getE c1w "payload")) ∧
    (decode (.vmap c1w) = some (c1wEvent, .vmap c1w)) ∧
    (Val.vmap c1w = .vmap c1w ∧ decode (.vmap c1w) = some (c1wEvent, .vmap c1w)) :=
  ⟨rfl, rfl, decode_repeat_of_payload_unreplaced c1w c1wEvent (.vmap c1w) rfl rfl⟩

/-! ### C2 — graceful degradation of decode -/

/-- C2, counterexample: a raw mapping whose `repo` entry is a mapping
without a `name` key makes `decode` raise (`KeyError` from
`self.repo['name']`), contradicting the claim that such input decodes
without raising. -/
theorem decode_repo_without_name_raises :
    decode (.vmap [("repo", .vmap [("id", .vnum 1)])]) = none := rfl

/-- C2, amended: `decode` returns an Event without raising for every
mapping whose `repo` entry (when present and not `None`) is a mapping with
a string `name`, and whose type/payload combination is accepted by the
selected transform; in particular the mapping with every top-level key
absent decodes to the all-absent Event. -/
theorem decode_isSome_of_ok :
    (∀ es : List (String × Val), repoOk es = true → handlerOk es = true →
      (decode (.vmap es)).isSome = true) ∧
    decode (.vmap []) =
      some (⟨.vnull, .vnull, .vnull, .vnull, .vnull, .vnull, .vnull, .vnull⟩, .vmap []) := by
  refine ⟨?_, rfl⟩
  intro es hr hh
  rw [handlerOk, Option.isSome_iff_exists] at hh
  obtain ⟨⟨r, pa⟩, hA⟩ := hh
  rw [repoOk, Option.isSome_iff_exists] at hr
  obtain ⟨rv, hR⟩ := hr
  simp [decode, hA, hR]

/-- The mapping instantiating the witness of C2. -/
def c2w : List (String × Val) := [("type", .vstr "GistEvent"), ("payload", .vmap [])]

/-- C2, witness: the amended theorem applied to a `GistEvent` mapping with
an empty payload and no other keys. -/
theorem decode_isSome_of_ok_witness :
    repoOk c2w = true ∧ handlerOk c2w = true ∧ (decode (.vmap c2w)).isSome = true :=
  ⟨rfl, rfl, decode_isSome_of_ok.1 c2w rfl rfl⟩

/-! ### C3 — absent payload key -/

/-- C3, counterexample: for a `PushEvent` mapping without a `payload` key
the decoded payload is `None` (the handler is invoked with
`event.get('payload')`, which has no default), whereas the transform applied
to an empty mapping returns the empty mapping — the two differ. -/
theorem decode_absent_payload_not_empty_map :
    (decode (.vmap [("type", .vstr "PushEvent")])).map (fun r => r.1.payload) =
      some .vnull ∧
    applyHandler (.vstr "PushEvent") (.vmap []) = some (.vmap [], .vmap []) ∧
    Val.vnull ≠ .vmap [] :=
  ⟨rfl, rfl, by simp⟩

/-- C3, amended: when the raw event mapping has no `payload` key, the
Dispatcher is invoked with the absent value `None` (not an empty mapping):
whenever such a decode succeeds, the Event's payload is the transform
applied to `None`, and the raw mapping is left unchanged. -/
theorem decode_absent_payload_null :
    ∀ (es : List (String × Val)) (e : Event) (m : Val),
    lookupE es "payload" = none →
    decode (.vmap es) = some (e, m) →
    (applyHandler (getE es "type") .vnull).map Prod.fst = some e.payload ∧
      m = .vmap es := by
  intro es e m hl hD
  have hg : getE es "payload" = .vnull := by simp [getE, hl]
  cases hA : applyHandler (getE es "type") Val.vnull with
  | none =>
      rw [← hg] at hA
      simp [decode, hA] at hD
  | some rp =>
      obtain ⟨r, pa⟩ := rp
      have hA2 := hA
      rw [← hg] at hA2
      simp only [decode, hA2] at hD
      cases hrp : repoFrom (getE es "repo") with
      | none => rw [hrp] at hD; simp at hD
      | some rv =>
          rw [hrp] at hD
          simp only [Option.some.injEq, Prod.mk.injEq] at hD
          obtain ⟨hE, hM⟩ := hD
          constructor
          · rw [← hE]
            rfl
          · rw [← hM]
            have hns : (lookupE es "payload").isSome = false := by simp [hl]
            simp [hns]

/-- The mapping instantiating the witness of C3: a `WatchEvent` with no
payload key. -/
def c3w : List (String × Val) := [("type", .vstr "WatchEvent"), ("public", .vbool true)]

/-- The Event decoded from `c3w`. -/
def c3wEvent : Event :=
  ⟨.vnull, .vnull, .vnull, .vnull, .vstr "WatchEvent", .vnull, .vnull, .vbool true⟩

/-- C3, witness: the amended theorem applied to `c3w`. -/
theorem decode_absent_payload_null_witness :
    lookupE c3w "payload" = none ∧
    decode (.vmap c3w) = some (c3wEvent, .vmap c3w) ∧
    ((applyHandler (getE c3w "type") .vnull).map Prod.fst = some c3wEvent.payload ∧
      Val.vmap c3w = .vmap c3w) :=
  ⟨rfl, rfl, decode_absent_payload_null c3w c3wEvent (.vmap c3w) rfl rfl⟩

/-! ### C4 — repo name splitting -/

/-- C4, counterexample: the repo name is split on every slash, not just the
first: `"a/b/c"` yields a three-element tuple, not a two-element pair. -/
theorem decode_repo_name_three_components :
    (decode (.vmap [("repo", .vmap [("name", .vstr "a/b/c")])])).map (fun r => r.1.repo) =
      some (.vlist [.vstr "a", .vstr "b", .vstr "c"]) ∧
    (Val.vlist [.vstr "a", .vstr "b", .vstr "c"]).tupleLength = 3 ∧ (3 : Nat) ≠ 2 :=
  ⟨rfl, rfl, by decide⟩

/-- C4, amended: for every raw event mapping containing a `repo` mapping
with a string `name`, decode stores the repo attribute as the tuple of the
name split on every slash (one more component than the number of slashes);
for a name with exactly one slash, such as `"octocat/Hello-World"`, that is
the pair of owner and repository name (see the witness). -/
theorem decode_repo_splits_on_every_slash :
    ∀ (es rs : List (String × Val)) (s : String) (e : Event) (m : Val),
    getE es "repo" = .vmap rs →
    lookupE rs "name" = some (.vstr s) →
    decode (.vmap es) = some (e, m) →
    e.repo = .vlist ((pySplit s '/').map .vstr) := by
  intro es rs s e m hrepo hname hD
  have hrp : repoFrom (getE es "repo") = some (.vlist ((pySplit s '/').map .vstr)) := by
    rw [hrepo]; simp [repoFrom, hname]
  cases hA : applyHandler (getE es "type") (getE es "payload") with
  | none => simp [decode, hA] at hD
  | some rp =>
      obtain ⟨r, pa⟩ := rp
      simp only [decode, hA, hrp] at hD
      simp only [Option.some.injEq, Prod.mk.injEq] at hD
      obtain ⟨hE, hM⟩ := hD
      rw [← hE]

/-- The mapping instantiating the witness of C4: the spec's own
`octocat/Hello-World` example. -/
def c4w : List (String × Val) := [("repo", .vmap [("name", .vstr "octocat/Hello-World")])]

/-- The Event decoded from `c4w`: its repo is the owner/name pair. -/
def c4wEvent : Event :=
  ⟨.vnull, .vnull, .vnull, .vnull, .vnull, .vnull,
    .vlist [.vstr "octocat", .vstr "Hello-World"], .vnull⟩

/-- C4, witness: the amended theorem applied to `c4w`; the split of
`"octocat/Hello-World"` is the two-element pair. -/
theorem decode_repo_splits_on_every_slash_witness :
    getE c4w "repo" = .vmap [("name", .vstr "octocat/Hello-World")] ∧
    lookupE [("name", .vstr "octocat/Hello-World")] "name" =
      some (.vstr "octocat/Hello-World") ∧
    decode (.vmap c4w) = some (c4wEvent, .vmap c4w) ∧
    c4wEvent.repo = .vlist ((pySplit "octocat/Hello-World" '/').map .vstr) ∧
    (pySplit "octocat/Hello-World" '/').map Val.vstr =
      [.vstr "octocat", .vstr "Hello-World"] :=
  ⟨rfl, rfl, rfl,
    decode_repo_splits_on_every_slash c4w [("name", .vstr "octocat/Hello-World")]
      "octocat/Hello-World" c4wEvent (.vmap c4w) rfl rfl rfl, rfl⟩

/-! ### C5 — selective replacement and the frame of the transforms -/

/-- C5: every registered transform replaces only its listed keys and only
when present and truthy.  (1) For `IssueCommentEvent`, a payload with truthy
`issue` and `comment` has both replaced by entities while every other key
keeps its original value; (2) for every registered type and listed key, a
payload whose entry at that key is absent or falsy keeps that entry
untouched through the dispatcher; (3) in particular the `ForkEvent`
transform maps the empty payload to itself. -/
theorem transforms_selective_replacement :
    (∀ (p : List (String × Val)) (k : String),
      truthy (getE p "issue") = true → truthy (getE p "comment") = true →
      k ≠ "issue" → k ≠ "comment" →
      (_issuecomm (.vmap p)).map
        (fun r => (getE r.entriesOf "issue", getE r.entriesOf "comment",
          getE r.entriesOf k)) =
        some (.ventity "Issue" (getE p "issue"),
          .ventity "IssueComment" (getE p "comment"), getE p k)) ∧
    (∀ (t k : String) (p : List (String × Val)),
      k ∈ listedKeys t → truthy (getE p k) = false →
      (applyHandler (.vstr t) (.vmap p)).map (fun r => getE r.2.entriesOf k) =
        some (getE p k)) ∧
    applyHandler (.vstr "ForkEvent") (.vmap []) = some (.vmap [], .vmap []) := by
  refine ⟨?_, ?_, rfl⟩
  · intro p k ht1 ht2 hk1 hk2
    simp only [_issuecomm]
    rw [if_pos ht1]
    have hc : getE (setE p "issue" (.ventity "Issue" (getE p "issue"))) "comment"
        = getE p "comment" := getE_setE_ne p "issue" "comment" _ (by decide)
    rw [hc, if_pos ht2]
    simp only [Option.map_some', Option.some.injEq, Val.entriesOf, Prod.mk.injEq]
    refine ⟨?_, ?_, ?_⟩
    · rw [getE_setE_ne _ "comment" "issue" _ (by decide), getE_setE_self]
    · rw [getE_setE_self]
    · rw [getE_setE_ne _ "comment" k _ hk2, getE_setE_ne _ "issue" k _ hk1]
  · intro t k p hk hf
    by_cases h1 : t = "CommitCommentEvent"
    · subst h1
      rw [show listedKeys "CommitCommentEvent" = ["comment"] from rfl] at hk
      simp only [List.mem_singleton] at hk
      subst hk
      rw [show applyHandler (.vstr "CommitCommentEvent") (.vmap p)
        = (_commitcomment (.vmap p)).map (fun r => (r, r)) from rfl]
      simp [_commitcomment, hf, Val.entriesOf]
    by_cases h2 : t = "FollowEvent"
    · subst h2
      rw [show listedKeys "FollowEvent" = ["target"] from rfl] at hk
      simp only [List.mem_singleton] at hk
      subst hk
      rw [show applyHandler (.vstr "FollowEvent") (.vmap p)
        = (_follow (.vmap p)).map (fun r => (r, r)) from rfl]
      simp [_follow, hf, Val.entriesOf]
    by_cases h3 : t = "ForkEvent"
    · subst h3
      rw [show listedKeys "ForkEvent" = ["forkee"] from rfl] at hk
      simp only [List.mem_singleton] at hk
      subst hk
      rw [show applyHandler (.vstr "ForkEvent") (.vmap p)
        = (_forkev (.vmap p)).map (fun r => (r, r)) from rfl]
      simp [_forkev, hf, Val.entriesOf]
    by_cases h4 : t = "GistEvent"
    · subst h4
      rw [show listedKeys "GistEvent" = ["gist"] from rfl] at hk
      simp only [List.mem_singleton] at hk
      subst hk
      rw [show applyHandler (.vstr "GistEvent") (.vmap p)
        = (_gist (.vmap p)).map (fun r => (r, r)) from rfl]
      simp [_gist, hf, Val.entriesOf]
    by_cases h5 : t = "IssueCommentEvent"
    · subst h5
      rw [show listedKeys "IssueCommentEvent" = ["issue", "comment"] from rfl] at hk
      rw [show applyHandler (.vstr "IssueCommentEvent") (.vmap p)
        = (_issuecomm (.vmap p)).map (fun r => (r, r)) from rfl]
      simp only [List.mem_cons, List.mem_singleton, List.not_mem_nil, or_false] at hk
      rcases hk with hk | hk
      · subst hk
        simp only [_issuecomm, hf]
        have h1 : getE (if truthy (getE p "comment") = true
            then setE p "comment" (.ventity "IssueComment" (getE p "comment")) else p)
            "issue" = getE p "issue" :=
          getE_ifset_ne p "comment" "IssueComment" "issue" (by decide)
        simp [Val.entriesOf, h1]
      · subst hk
        simp only [_issuecomm]
        have h1 : getE (if truthy (getE p "issue") = true
            then setE p "issue" (.ventity "Issue" (getE p "issue")) else p)
            "comment" = getE p "comment" :=
          getE_ifset_ne p "issue" "Issue" "comment" (by decide)
        rw [h1, hf]
        simp [Val.entriesOf, h1]
    by_cases h6 : t = "IssuesEvent"
    · subst h6
      rw [show listedKeys "IssuesEvent" = ["issue"] from rfl] at hk
      simp only [List.mem_singleton] at hk
      subst hk
      rw [show applyHandler (.vstr "IssuesEvent") (.vmap p)
        = (_issueevent (.vmap p)).map (fun r => (r, r)) from rfl]
      simp [_issueevent, hf, Val.entriesOf]
    by_cases h7 : t = "MemberEvent"
    · subst h7
      rw [show listedKeys "MemberEvent" = ["member"] from rfl] at hk
      simp only [List.mem_singleton] at hk
      subst hk
      rw [show applyHandler (.vstr "MemberEvent") (.vmap p)
        = (_member (.vmap p)).map (fun r => (r, r)) from rfl]
      simp [_member, hf, Val.entriesOf]
    by_cases h8 : t = "PullRequestEvent"
    · subst h8
      rw [show listedKeys "PullRequestEvent" = ["pull_request"] from rfl] at hk
      simp only [List.mem_singleton] at hk
      subst hk
      rw [show applyHandler (.vstr "PullRequestEvent") (.vmap p)
        = (_pullreqev (.vmap p)).map (fun r => (r, r)) from rfl]
      simp [_pullreqev, hf, Val.entriesOf]
    by_cases h9 : t = "PullRequestReviewCommentEvent"
    · subst h9
      rw [show listedKeys "PullRequestReviewCommentEvent" = ["pull_request", "comment"] from rfl] at hk
      rw [show applyHandler (.vstr "PullRequestReviewCommentEvent") (.vmap p)
        = (_pullreqcomm (.vmap p)).map (fun r => (r, r)) from rfl]
      simp only [List.mem_cons, List.mem_singleton, List.not_mem_nil, or_false] at hk
      rcases hk with hk | hk
      · subst hk
        simp only [_pullreqcomm, hf]
        have h1 : getE (if truthy (getE p "comment") = true
            then setE p "comment" (.ventity "ReviewComment" (getE p "comment")) else p)
            "pull_request" = getE p "pull_request" :=
          getE_ifset_ne p "comment" "ReviewComment" "pull_request" (by decide)
        simp [Val.entriesOf, h1]
      · subst hk
        simp only [_pullreqcomm]
        have h1 : getE (if truthy (getE p "pull_request") = true
            then setE p "pull_request" (.ventity "PullRequest" (getE p "pull_request")) else p)
            "comment" = getE p "comment" :=
          getE_ifset_ne p "pull_request" "PullRequest" "comment" (by decide)
        rw [h1, hf]
        simp [Val.entriesOf, h1]
    by_cases h10 : t = "ReleaseEvent"
    · subst h10
      rw [show listedKeys "ReleaseEvent" = ["release"] from rfl] at hk
      simp only [List.mem_singleton] at hk
      subst hk
      rw [show applyHandler (.vstr "ReleaseEvent") (.vmap p)
        = (_release (.vmap p)).map (fun r => (r, r)) from rfl]
      simp [_release, hf, Val.entriesOf]
    by_cases h11 : t = "TeamAddEvent"
    · subst h11
      rw [show listedKeys "TeamAddEvent" = ["team", "repo", "user"] from rfl] at hk
      rw [show applyHandler (.vstr "TeamAddEvent") (.vmap p)
        = (_team (.vmap p)).map (fun r => (r, r)) from rfl]
      simp only [List.mem_cons, List.not_mem_nil, or_false] at hk
      rcases hk with hk | hk | hk
      · subst hk
        simp only [_team, hf]
        have h1 : ∀ es : List (String × Val), getE (if truthy (getE es "repo") = true
            then setE es "repo" (.ventity "Repository" (getE es "repo")) else es)
            "team" = getE es "team" :=
          fun es => getE_ifset_ne es "repo" "Repository" "team" (by decide)
        have h2 : ∀ es : List (String × Val), getE (if truthy (getE es "user") = true
            then setE es "user" (.ventity "User" (getE es "user")) else es)
            "team" = getE es "team" :=
          fun es => getE_ifset_ne es "user" "User" "team" (by decide)
        simp [Val.entriesOf, h1, h2]
      · subst hk
        simp only [_team]
        have h1 : getE (if truthy (getE p "team") = true
            then setE p "team" (.ventity "Team" (getE p "team")) else p)
            "repo" = getE p "repo" :=
          getE_ifset_ne p "team" "Team" "repo" (by decide)
        rw [h1, hf]
        have h2 : ∀ es : List (String × Val), getE (if truthy (getE es "user") = true
            then setE es "user" (.ventity "User" (getE es "user")) else es)
            "repo" = getE es "repo" :=
          fun es => getE_ifset_ne es "user" "User" "repo" (by decide)
        simp [Val.entriesOf, h1, h2]
      · subst hk
        simp only [_team]
        have h1 : ∀ es : List (String × Val), getE (if truthy (getE es "team") = true
            then setE es "team" (.ventity "Team" (getE es "team")) else es)
            "user" = getE es "user" :=
          fun es => getE_ifset_ne es "team" "Team" "user" (by decide)
        have h2 : ∀ es : List (String × Val), getE (if truthy (getE es "repo") = true
            then setE es "repo" (.ventity "Repository" (getE es "repo")) else es)
            "user" = getE es "user" :=
          fun es => getE_ifset_ne es "repo" "Repository" "user" (by decide)
        rw [h2, h1, hf]
        simp [Val.entriesOf, h1, h2]
    rw [show listedKeys t = (if t = "CommitCommentEvent" then ["comment"]
      else if t = "FollowEvent" then ["target"]
      else if t = "ForkEvent" then ["forkee"]
      else if t = "GistEvent" then ["gist"]
      else if t = "IssueCommentEvent" then ["issue", "comment"]
      else if t = "IssuesEvent" then ["issue"]
      else if t = "MemberEvent" then ["member"]
      else if t = "PullRequestEvent" then ["pull_request"]
      else if t = "PullRequestReviewCommentEvent" then ["pull_request", "comment"]
      else if t = "ReleaseEvent" then ["release"]
      else if t = "TeamAddEvent" then ["team", "repo", "user"]
      else []) from rfl] at hk
    rw [if_neg h1, if_neg h2, if_neg h3, if_neg h4, if_neg h5, if_neg h6,
      if_neg h7, if_neg h8, if_neg h9, if_neg h10, if_neg h11] at hk
    exact absurd hk (List.not_mem_nil k)

/-- The payload instantiating the witness of C5: truthy `issue` and
`comment` plus an unrelated `extra` key. -/
def c5wP : List (String × Val) :=
  [("issue", .vmap [("n", .vnum 1)]), ("comment", .vmap [("b", .vstr "hi")]),
   ("extra", .vstr "x")]

/-- C5, witness: the theorem applied to the concrete `IssueCommentEvent`
payload `c5wP` (with `k` the `extra` key) and to the `ForkEvent` transform
on a payload without a `forkee` key. -/
theorem transforms_selective_replacement_witness :
    truthy (getE c5wP "issue") = true ∧ truthy (getE c5wP "comment") = true ∧
    ("extra" : String) ≠ "issue" ∧ ("extra" : String) ≠ "comment" ∧
    (_issuecomm (.vmap c5wP)).map
      (fun r => (getE r.entriesOf "issue", getE r.entriesOf "comment",
        getE r.entriesOf "extra")) =
      some (.ventity "Issue" (getE c5wP "issue"),
        .ventity "IssueComment" (getE c5wP "comment"), getE c5wP "extra") ∧
    "forkee" ∈ listedKeys "ForkEvent" ∧
    truthy (getE [("a", Val.vnum 2)] "forkee") = false ∧
    (applyHandler (.vstr "ForkEvent") (.vmap [("a", Val.vnum 2)])).map
      (fun r => getE r.2.entriesOf "forkee") =
      some (getE [("a", Val.vnum 2)] "forkee") :=
  ⟨rfl, rfl, by decide, by decide,
    transforms_selective_replacement.1 c5wP "extra" rfl rfl (by decide) (by decide),
    by decide, rfl,
    transforms_selective_replacement.2.1 "ForkEvent" "forkee"
      [("a", Val.vnum 2)] (by decide) rfl⟩

/-! ### C6 — dispatcher totality on mappings -/

/-- C6: for every string `t` (registered or not) and every payload mapping,
looking up `t` and applying the selected transform succeeds, returning a
mapping — or, exactly for `PublicEvent`, the empty string. -/
theorem applyHandler_total_on_vmap :
    ∀ (t : String) (es : List (String × Val)),
    (applyHandler (.vstr t) (.vmap es)).map
      (fun r => if t = "PublicEvent" then r.1.isEmptyStr else r.1.isVmapB) =
      some true := by
  intro t es
  by_cases h1 : t = "CommitCommentEvent"
  · subst h1; rfl
  by_cases h2 : t = "CreateEvent"
  · subst h2; rfl
  by_cases h3 : t = "DeleteEvent"
  · subst h3; rfl
  by_cases h4 : t = "FollowEvent"
  · subst h4; rfl
  by_cases h5 : t = "ForkEvent"
  · subst h5; rfl
  by_cases h6 : t = "ForkApplyEvent"
  · subst h6; rfl
  by_cases h7 : t = "GistEvent"
  · subst h7; rfl
  by_cases h8 : t = "GollumEvent"
  · subst h8; rfl
  by_cases h9 : t = "IssueCommentEvent"
  · subst h9; rfl
  by_cases h10 : t = "IssuesEvent"
  · subst h10; rfl
  by_cases h11 : t = "MemberEvent"
  · subst h11; rfl
  by_cases h12 : t = "PublicEvent"
  · subst h12; rfl
  by_cases h13 : t = "PullRequestEvent"
  · subst h13; rfl
  by_cases h14 : t = "PullRequestReviewCommentEvent"
  · subst h14; rfl
  by_cases h15 : t = "PushEvent"
  · subst h15; rfl
  by_cases h16 : t = "ReleaseEvent"
  · subst h16; rfl
  by_cases h17 : t = "StatusEvent"
  · subst h17; rfl
  by_cases h18 : t = "TeamAddEvent"
  · subst h18; rfl
  by_cases h19 : t = "WatchEvent"
  · subst h19; rfl
  simp only [applyHandler, if_neg h1, if_neg h2, if_neg h3, if_neg h4, if_neg h5,
    if_neg h6, if_neg h7, if_neg h8, if_neg h9, if_neg h10, if_neg h11, if_neg h12,
    if_neg h13, if_neg h14, if_neg h15, if_neg h16, if_neg h17, if_neg h18, if_neg h19]
  simp [identity, Val.isVmapB, h12]

/-! ### C7 — identity fallback for unregistered types -/

/-- C7: for every type string not among the 19 registered names and every
payload value, the dispatcher falls back to `identity`: the payload is
returned as-is, unmodified. -/
theorem applyHandler_identity_fallback :
    ∀ (t : String) (p : Val), t ∉ registeredTypes →
    applyHandler (.vstr t) p = some (p, p) := by
  intro t p h
  simp only [registeredTypes, List.mem_cons, List.not_mem_nil, or_false,
    not_or] at h
  obtain ⟨h1, h2, h3, h4, h5, h6, h7, h8, h9, h10, h11, h12, h13, h14, h15,
    h16, h17, h18, h19⟩ := h
  simp only [applyHandler, if_neg h1, if_neg h2, if_neg h3, if_neg h4, if_neg h5,
    if_neg h6, if_neg h7, if_neg h8, if_neg h9, if_neg h10, if_neg h11, if_neg h12,
    if_neg h13, if_neg h14, if_neg h15, if_neg h16, if_neg h17, if_neg h18, if_neg h19]
  rfl

/-- C7, witness: the identity fallback at the unregistered type
`SponsorshipEvent` and a one-entry payload mapping. -/
theorem applyHandler_identity_fallback_witness :
    "SponsorshipEvent" ∉ registeredTypes ∧
    applyHandler (.vstr "SponsorshipEvent") (.vmap [("x", .vnum 1)]) =
      some (.vmap [("x", .vnum 1)], .vmap [("x", .vnum 1)]) :=
  ⟨by decide,
    applyHandler_identity_fallback "SponsorshipEvent" (.vmap [("x", .vnum 1)])
      (by decide)⟩

/-! ### C8 — the PublicEvent transform -/

/-- C8: for `t = PublicEvent` and every payload value whatsoever, the
registered transform (`lambda x: ''`) returns the empty string and leaves
the payload object alone. -/
theorem applyHandler_publicevent_empty_string :
    ∀ p : Val, applyHandler (.vstr "PublicEvent") p = some (.vstr "", p) := by
  intro p; rfl

/-! ### C9 — the textual representation -/

/-- C9, counterexample: the rendered tag is `type[:-5]`, not a trailing
`Event`-suffix strip.  For the type string `"Push"` (which does not end in
`Event`) the code renders the empty tag, while the spec's suffix-strip
would leave `"Push"` intact. -/
theorem event_repr_chops_nonEvent_type :
    (decode (.vmap [("type", .vstr "Push")])).map (fun r => Event._repr r.1) =
      some (some "<Event []>") ∧
    stripEventSuffixSpec "Push" = "Push" ∧
    (some (some "<Event []>") : Option (Option String)) ≠
      some (some ("<Event [" ++ "Push" ++ "]>")) :=
  ⟨rfl, by decide, by decide⟩

/-- C9, amended: the rendering of an Event with a string type is the tag
built from that string with its last five characters removed (Python
`self.type[:-5]`).  For strings ending in `Event` this coincides with
stripping the suffix (second and third conjuncts); for other strings it
chops five characters rather than leaving the string intact. -/
theorem event_repr_drops_last_five :
    (∀ (e : Event) (s : String), e.type = .vstr s →
      Event._repr e = some ("<Event [" ++ pySliceDropLast5 s ++ "]>")) ∧
    (∀ t : String, pySliceDropLast5 (t ++ "Event") = t) ∧
    (∀ s : String, ("Event".toList).isSuffixOf s.toList = true →
      stripEventSuffixSpec s = pySliceDropLast5 s) := by
  refine ⟨?_, ?_, ?_⟩
  · intro e s h
    simp only [Event._repr, h]
  · intro t
    obtain ⟨d⟩ := t
    have h1 : (String.mk d ++ "Event") = String.mk (d ++ ['E', 'v', 'e', 'n', 't']) := rfl
    rw [h1]
    simp only [pySliceDropLast5]
    have h2 : (String.mk (d ++ ['E', 'v', 'e', 'n', 't'])).toList
        = d ++ ['E', 'v', 'e', 'n', 't'] := rfl
    rw [h2, List.length_append]
    norm_num
  · intro s h
    have h2 : ['E', 'v', 'e', 'n', 't'] <:+ s.data := by simpa using h
    simp [stripEventSuffixSpec, pySliceDropLast5, h2]

/-- The Event instantiating the witness of C9. -/
def c9wEvent : Event :=
  ⟨.vnull, .vnull, .vnull, .vnull, .vstr "PushEvent", .vnull, .vnull, .vnull⟩

/-- C9, witness: the amended theorem applied to an Event of type
`PushEvent` and to the suffix computation at `"Push"`. -/
theorem event_repr_drops_last_five_witness :
    c9wEvent.type = .vstr "PushEvent" ∧
    Event._repr c9wEvent = some ("<Event [" ++ pySliceDropLast5 "PushEvent" ++ "]>") ∧
    pySliceDropLast5 ("Push" ++ "Event") = "Push" ∧
    ("Event".toList).isSuffixOf ("PushEvent".toList) = true ∧
    stripEventSuffixSpec "PushEvent" = pySliceDropLast5 "PushEvent" :=
  ⟨rfl, event_repr_drops_last_five.1 c9wEvent "PushEvent" rfl,
    event_repr_drops_last_five.2.1 "Push", by decide,
    event_repr_drops_last_five.2.2 "PushEvent" (by decide)⟩

/-! ### C10 — absent type key -/

/-- C10, counterexample: a mapping with no `type` key does not always
decode: with a `repo` mapping lacking a `name` key, decode still raises, so
the claim's universal "decode still succeeds" fails. -/
theorem decode_missing_type_can_raise :
    decode (.vmap [("repo", .vmap [("full_name", .vstr "o/r")])]) = none := rfl

/-- C10, amended: a mapping with no `type` key decodes exactly as an
unrecognized type, whenever the rest of the mapping does not make decode
raise: the Event's type attribute is `None`, the payload is passed through
the identity fallback unchanged, and the raw mapping is left equal to its
original value. -/
theorem decode_missing_type_identity :
    ∀ (es : List (String × Val)) (e : Event) (m : Val),
    lookupE es "type" = none →
    decode (.vmap es) = some (e, m) →
    e.type = .vnull ∧ e.payload = getE es "payload" ∧ m = .vmap es := by
  intro es e m hl hD
  have hg : getE es "type" = .vnull := by simp [getE, hl]
  have hA : applyHandler (getE es "type") (getE es "payload")
      = some (getE es "payload", getE es "payload") := by rw [hg]; rfl
  simp only [decode, hA] at hD
  cases hrp : repoFrom (getE es "repo") with
  | none => rw [hrp] at hD; simp at hD
  | some rv =>
      rw [hrp] at hD
      simp only [Option.some.injEq, Prod.mk.injEq] at hD
      obtain ⟨hE, hM⟩ := hD
      refine ⟨?_, ?_, ?_⟩
      · rw [← hE]
        exact hg
      · rw [← hE]
      · rw [← hM]
        by_cases hp : (lookupE es "payload").isSome
        · simp only [hp, if_true, setE_lookup_self es "payload" hp]
        · simp only [hp, if_false]
          simp at hp
          simp [hp]

/-- The mapping instantiating the witness of C10: a payload but no type. -/
def c10w : List (String × Val) := [("payload", .vmap [("z", .vnum 3)])]

/-- The Event decoded from `c10w`. -/
def c10wEvent : Event :=
  ⟨.vnull, .vnull, .vnull, .vnull, .vnull, .vmap [("z", .vnum 3)], .vnull, .vnull⟩

/-- C10, witness: the amended theorem applied to `c10w`. -/
theorem decode_missing_type_identity_witness :
    lookupE c10w "type" = none ∧
    decode (.vmap c10w) = some (c10wEvent, .vmap c10w) ∧
    (c10wEvent.type = .vnull ∧ c10wEvent.payload = getE c10w "payload" ∧
      Val.vmap c10w = .vmap c10w) :=
  ⟨rfl, rfl, decode_missing_type_identity c10w c10wEvent (.vmap c10w) rfl rfl⟩
